import Mathlib

/-!
Verification development for the edge-api update-repository builder.

The Go sources embedded here are:
* `pkg/updates/updates.go` — the build pipeline (`RepoBuilder`,
  `DownloadExtractVersionRepo`, `RepoPullLocalStaticDeltas`, `RepoRevParse`),
  the HTTP handlers (`Add`, `UpdateCtx`, `GetAll`, `GetByID`, `Update`);
* `pkg/repo/server.go` — the artifact servers (`FileServer.ServeRepo`,
  `S3Proxy.ServeRepo`, `getNameAndPrefix`);
* `config/config.go` — configuration (`BucketName`).

Side-effecting Go code is embedded as pure Lean functions that return an
explicit trace of effects (a `List Event`) together with their Go return
value; fallible operations consult an environment `Env` of oracles that
says which external operations succeed.  Each Lean definition follows the
Go statements of the corresponding function one by one, including the
places where the Go code discards an error value.
-/

namespace EdgeApi

/-- Splits a character list into its slash-separated segments (the
separators themselves are dropped; empty segments are kept, to be
discarded by the cleaning pass). -/
def splitOnSlash (cs : List Char) : List (List Char) :=
  cs.foldr (fun c acc =>
    match acc with
    | [] => if c = '/' then [[], []] else [[c]]
    | seg :: rest => if c = '/' then [] :: seg :: rest else (c :: seg) :: rest)
    [[]]

/-- The element rules of Go `path.Clean` applied to slash-split segments:
empty and `.` segments are dropped, a `..` segment swallows the segment
before it, except that at the root `..` vanishes and in a relative path
leading `..`s are kept.  `out` is the output stack in reverse order. -/
def cleanLoop (rooted : Bool) : List (List Char) → List (List Char) → List (List Char)
  | out, [] => out
  | out, seg :: rest =>
      if seg = [] ∨ seg = ['.'] then cleanLoop rooted out rest
      else if seg = ['.', '.'] then
        match out with
        | [] =>
            if rooted then cleanLoop rooted [] rest
            else cleanLoop rooted [['.', '.']] rest
        | top :: outRest =>
            if top = ['.', '.'] then cleanLoop rooted (seg :: out) rest
            else cleanLoop rooted outRest rest
      else cleanLoop rooted (seg :: out) rest

/-- Model of Go `path.Clean` for slash-separated paths: collapses
repeated separators, drops `.` elements, resolves `..` elements against
the preceding element (or against the root), and returns `.` for an
emptied relative path. -/
def goClean (s : String) : String :=
  let cs := s.toList
  let rooted : Bool := match cs with
    | '/' :: _ => true
    | _ => false
  let outSegs := (cleanLoop rooted [] (splitOnSlash cs)).reverse
  let body := String.intercalate "/" (outSegs.map fun l => String.mk l)
  if rooted then "/" ++ body
  else if body = "" then "." else body

/-- Model of Go `filepath.Join` for two components: empty components are
skipped, the remaining ones are glued with a separator, and the result
is cleaned with `path.Clean` — so `..` segments in the second component
can climb out of the first. -/
def filepathJoin (a b : String) : String :=
  if a = "" ∧ b = "" then ""
  else if a = "" then goClean b
  else if b = "" then goClean a
  else goClean (a ++ "/" ++ b)

/-- Model of Go `strings.Index` on character lists: index of the first
occurrence of `needle`, `none` when absent (Go returns `-1` there). -/
def subIndex (needle : List Char) : List Char → Option Nat
  | [] => if needle.isEmpty then some 0 else none
  | c :: rest =>
      if needle.isPrefixOf (c :: rest) then some 0
      else (subIndex needle rest).map (· + 1)

/-- Model of Go `strings.Index` on strings. -/
def strIndex (hay needle : String) : Option Nat :=
  subIndex needle.toList hay.toList

/-- An OSTree commit as used by `pkg/updates/updates.go` (the struct lives
in `pkg/commits`; these are exactly the fields the pipeline reads:
`OSTreeCommit`, `OSTreeRef`, `ImageBuildHash`, `ImageBuildTarURL`,
`BuildDate`, `BuildNumber`). -/
structure Commit where
  osTreeCommit : String
  osTreeRef : String
  imageBuildHash : String
  imageBuildTarURL : String
  buildDate : String
  buildNumber : String
  deriving DecidableEq, Repr

/-- The `UpdateRecord` of `pkg/updates/updates.go` (gorm.Model contributes
the numeric `ID`). -/
structure UpdateRecord where
  id : Nat
  updateCommit : Commit
  oldCommits : List Commit
  inventoryHosts : List String
  state : String
  deriving DecidableEq, Repr

/-- The two Uploader variants selected in `RepoBuilder`:
`repo.FileUploader` and the S3 uploader returned by `repo.NewS3Uploader`. -/
inductive UploaderKind where
  | file
  | s3
  deriving DecidableEq, Repr

/-- One observable side effect of the pipeline, in program order. -/
inductive Event where
  | dbUpdate (id : Nat) (state : String)
  | mkdirAll (path : String)
  | chdir (path : String)
  | download (url : String) (dest : String)
  | openFile (path : String)
  | untar (path : String) (dest : String)
  | removeFile (path : String)
  | ostreeCommitMeta (repoPath ref meta : String)
  | revParse (repoPath ref : String)
  | pullLocal (uprepo oldrepo rev : String)
  | staticDelta (uprepo fromRev toRev : String)
  | removeAll (path : String)
  | upload (kind : UploaderKind) (src : String)
  deriving DecidableEq, Repr

/-- The error a stage can return (mirrors the distinct `return err`
sites of the Go functions). -/
inductive BuildError where
  | mkdirErr
  | chdirErr
  | fetchErr
  | openErr
  | removeErr
  | commitErr
  | revParseErr
  | pullErr
  | deltaErr
  | removeAllErr
  deriving DecidableEq, Repr

/-- Oracles describing which external operations succeed, plus the
configuration the pipeline reads (`config.Get().BucketName`). -/
structure Env where
  mkdirOK : String → Bool
  chdirOK : String → Bool
  fetchOK : String → Bool
  openOK : String → Bool
  removeOK : String → Bool
  ostreeCommitOK : String → String → Bool
  revParseOut : String → String → Option String
  pullOK : String → String → String → Bool
  deltaOK : String → String → String → Bool
  removeAllOK : String → Bool
  bucketName : String

/-- Model of Go `fmt.Sprint` applied to three string operands: operands
are concatenated, and spaces are inserted only between operands of which
neither is a string — so for strings it is bare concatenation (this is
`Sprint`, not `Sprintf`: no `%`-verb substitution happens). -/
def goSprint3 (a b c : String) : String :=
  a ++ b ++ c

/-- The version-metadata string `DownloadExtractVersionRepo` commits:
`fmt.Sprint("version=%s.%s", c.BuildDate, c.BuildNumber)` (updates.go
line 263). -/
def versionMetaString (c : Commit) : String :=
  goSprint3 "version=%s.%s" c.buildDate c.buildNumber

/-- The version-metadata string as the spec words it:
`version=<buildDate>.<buildNumber>` (spec section 4.2).  Kept separate
from `versionMetaString` so the two can be compared. -/
def specVersionMetaString (c : Commit) : String :=
  "version=" ++ c.buildDate ++ "." ++ c.buildNumber

/-- Embedding of `DownloadExtractVersionRepo(c, dest)` (updates.go
lines 229..270): mkdir the destination, chdir there, download the tarball
to `<dest>/<ImageBuildHash>.tar`, open and untar it (the `Untar` result is
not checked by the source), remove the archive, and run
`ostree --repo ./repo commit <ref> --add-metadata-string <meta>`.
Returns the effect trace and the Go return value. -/
def DownloadExtractVersionRepo (env : Env) (c : Commit) (dest : String) :
    List Event × Except BuildError Unit :=
  let t0 := [Event.mkdirAll dest]
  if ¬ env.mkdirOK dest then (t0, .error .mkdirErr) else
  let t1 := t0 ++ [Event.chdir dest]
  if ¬ env.chdirOK dest then (t1, .error .chdirErr) else
  let tarFileName := String.intercalate "." [c.imageBuildHash, "tar"]
  let tarPath := filepathJoin dest tarFileName
  let t2 := t1 ++ [Event.download c.imageBuildTarURL tarPath]
  if ¬ env.fetchOK c.imageBuildTarURL then (t2, .error .fetchErr) else
  let t3 := t2 ++ [Event.openFile tarPath]
  if ¬ env.openOK tarPath then (t3, .error .openErr) else
  let t4 := t3 ++ [Event.untar tarPath dest]
  let t5 := t4 ++ [Event.removeFile tarPath]
  if ¬ env.removeOK tarPath then (t5, .error .removeErr) else
  let t6 := t5 ++ [Event.ostreeCommitMeta "./repo" c.osTreeRef (versionMetaString c)]
  if ¬ env.ostreeCommitOK "./repo" c.osTreeRef then (t6, .error .commitErr) else
  (t6, .ok ())

/-- Embedding of `RepoRevParse(path, ref)` (updates.go lines 305..317):
run `ostree rev-parse --repo path ref`; on success return the trimmed
standard output, on failure return the empty string and the error. -/
def RepoRevParse (env : Env) (path ref : String) :
    List Event × Except BuildError String :=
  ([Event.revParse path ref],
    match env.revParseOut path ref with
    | none => .error .revParseErr
    | some out => .ok out.trim)

/-- Embedding of `RepoPullLocalStaticDeltas(u, o, uprepo, oldrepo)`
(updates.go lines 278..302).  The source resolves both refs with
`RepoRevParse` but never inspects the returned errors (the `err` values of
lines 284 and 285 are discarded): on a failed resolution the Go string
result is `""` and the function proceeds.  It then runs `pull-local` with
the old revision and generates the static delta; only those two commands
can make it return an error.  (The source's first statement,
`os.Chdir(dest)`, references a variable that does not exist in the
function; no claim depends on it and it is not modelled.) -/
def RepoPullLocalStaticDeltas (env : Env) (u o : Commit)
    (uprepo oldrepo : String) : List Event × Except BuildError Unit :=
  let ra := RepoRevParse env uprepo u.osTreeRef
  let updateRevParse := match ra.2 with
    | .ok s => s
    | .error _ => ""
  let rb := RepoRevParse env oldrepo o.osTreeRef
  let oldRevParse := match rb.2 with
    | .ok s => s
    | .error _ => ""
  let t1 := ra.1 ++ rb.1 ++ [Event.pullLocal uprepo oldrepo oldRevParse]
  if ¬ env.pullOK uprepo oldrepo oldRevParse then (t1, .error .pullErr) else
  let t2 := t1 ++ [Event.staticDelta uprepo oldRevParse updateRevParse]
  if ¬ env.deltaOK uprepo oldRevParse updateRevParse then (t2, .error .deltaErr) else
  (t2, .ok ())

/-- The working directory `RepoBuilder` creates for a record:
`filepath.Join("/tmp/update/", strconv.FormatUint(uint64(ur.ID), 10))`
(updates.go line 176). -/
def buildPath (id : Nat) : String :=
  filepathJoin "/tmp/update/" (toString id)

/-- The staging subdirectory `filepath.Join(path, "staging")`
(updates.go line 188). -/
def stagingPath (id : Nat) : String :=
  filepathJoin (buildPath id) "staging"

/-- One iteration of the old-commit loop of `RepoBuilder` (updates.go
lines 202..205): materialize the old commit under
`staging/<OSTreeCommit>/` and run the merge/delta step against the
update repo.  The source discards both return values, so the loop never
aborts; only the effect traces remain. -/
def oldCommitStep (env : Env) (ur : UpdateRecord) (c : Commit) : List Event :=
  (DownloadExtractVersionRepo env c
      (filepathJoin (stagingPath ur.id) c.osTreeCommit)).1 ++
  (RepoPullLocalStaticDeltas env ur.updateCommit c
      (filepathJoin (buildPath ur.id) "repo")
      (filepathJoin (filepathJoin (stagingPath ur.id) c.osTreeCommit) "repo")).1

/-- The tail of `RepoBuilder` after the old-commit block (updates.go
lines 209..224): remove the staging directory (the source names
`stagePath` here even when the old-commit block did not run; the path
meant is `<path>/staging`), then pick the uploader — `repo.FileUploader`
by default, the S3 uploader when `cfg.BucketName` is non-empty — and
upload `<path>/repo`.  The source assigns the `Upload` error but then
executes `return nil`, so an upload failure does not change the result. -/
def finishBuild (env : Env) (ur1 : UpdateRecord) (path : String)
    (t : List Event) : List Event × UpdateRecord × Except BuildError Unit :=
  let stagePath := filepathJoin path "staging"
  let t1 := t ++ [Event.removeAll stagePath]
  if ¬ env.removeAllOK stagePath then (t1, ur1, .error .removeAllErr) else
  let uploader := if env.bucketName ≠ "" then UploaderKind.s3 else UploaderKind.file
  let t2 := t1 ++ [Event.upload uploader (filepathJoin path "repo")]
  (t2, ur1, .ok ())

/-- Embedding of `RepoBuilder(ur, r)` (updates.go lines 172..225): set
`State = "BUILDING"` and persist it, create and enter the working
directory, materialize the update commit (the source ignores the value
`DownloadExtractVersionRepo` returns, line 185), run the old-commit loop
when `OldCommits` is non-empty, then remove staging and upload.  Returns
the effect trace, the in-memory record, and the Go return value. -/
def RepoBuilder (env : Env) (ur : UpdateRecord) :
    List Event × UpdateRecord × Except BuildError Unit :=
  let ur1 : UpdateRecord := { ur with state := "BUILDING" }
  let path := buildPath ur.id
  let t0 := [Event.dbUpdate ur1.id ur1.state, Event.mkdirAll path]
  if ¬ env.mkdirOK path then (t0, ur1, .error .mkdirErr) else
  let t1 := t0 ++ [Event.chdir path]
  if ¬ env.chdirOK path then (t1, ur1, .error .chdirErr) else
  let t2 := t1 ++ (DownloadExtractVersionRepo env ur.updateCommit path).1
  if ur.oldCommits.length > 0 then
    let stagePath := stagingPath ur.id
    let t3 := t2 ++ [Event.mkdirAll stagePath]
    if ¬ env.mkdirOK stagePath then (t3, ur1, .error .mkdirErr) else
    let t4 := t3 ++ [Event.chdir stagePath]
    if ¬ env.chdirOK stagePath then (t4, ur1, .error .chdirErr) else
    finishBuild env ur1 path (t4 ++ ur.oldCommits.flatMap (oldCommitStep env ur))
  else
    finishBuild env ur1 path t2

/-- The numeric value of a decimal digit character, `none` otherwise. -/
def digitVal (c : Char) : Option Nat :=
  if '0' ≤ c ∧ c ≤ '9' then some (c.toNat - '0'.toNat) else none

/-- Parses a non-empty string of decimal digits into a natural number. -/
def parseDigits (cs : List Char) : Option Nat :=
  if cs.isEmpty then none
  else
    cs.foldl (fun acc c =>
      match acc, digitVal c with
      | some n, some d => some (n * 10 + d)
      | _, _ => none) (some 0)

/-- Model of Go `strconv.Atoi`: an optional sign followed by at least one
decimal digit; anything else is an error. -/
def goAtoi (s : String) : Option Int :=
  match s.toList with
  | '+' :: ds => (parseDigits ds).map Int.ofNat
  | '-' :: ds => (parseDigits ds).map (fun n => -(Int.ofNat n))
  | ds => (parseDigits ds).map Int.ofNat

/-- What a middleware invocation does with the response writer and the
inner handler. -/
inductive CtxOutcome where
  | badRequest (msg : String)
  | notFound (msg : String)
  | callNext (u : UpdateRecord)
  | noResponse
  deriving DecidableEq, Repr

/-- The persistence collaborator as the handlers use it:
`db.DB.Where("account = ?", account).First(&update, id)`. -/
structure Db where
  firstByAccountAndId : String → Int → Option UpdateRecord

/-- Embedding of the `UpdateCtx` middleware (updates.go lines 73..96):
resolve the account (failure writes a 400 error), and when the
`updateID` URL parameter is non-empty, parse it (failure writes 400),
look the record up scoped by account (failure writes 404), and invoke
the inner handler with the record in the context.  When `updateID` is
the empty string the function body simply ends: nothing is written and
the inner handler is not invoked. -/
def UpdateCtx (db : Db) (accountRes : Except String String)
    (updateID : String) : CtxOutcome :=
  match accountRes with
  | .error e => .badRequest e
  | .ok account =>
      if updateID ≠ "" then
        match goAtoi updateID with
        | none => .badRequest "invalid syntax"
        | some id =>
            match db.firstByAccountAndId account id with
            | none => .notFound "record not found"
            | some u => .callNext u
      else .noResponse

/-- What the `Add` handler produced: the error response if any, the JSON
written to the response writer, the record handed to `db.DB.Create`, and
the record passed to the asynchronous `go RepoBuilder(...)` task. -/
structure AddResult where
  httpError : Option String
  responseBody : Option UpdateRecord
  created : Option UpdateRecord
  spawnedBuild : Option UpdateRecord
  deriving DecidableEq, Repr

/-- Embedding of the `Add` handler (updates.go lines 99..110): decode the
request body (failure writes a 400 error), create the record in the
database, and spawn `RepoBuilder` with `go` — the handler returns without
waiting for the build (its result carries no build events) and writes
nothing to the response body. -/
def Add (decoded : Except String UpdateRecord) : AddResult :=
  match decoded with
  | .error e =>
      { httpError := some e, responseBody := none, created := none,
        spawnedBuild := none }
  | .ok u =>
      { httpError := none, responseBody := none, created := some u,
        spawnedBuild := some u }

/-- Embedding of `getNameAndPrefix(r)` (server.go lines 22..30): error
when the `name` URL parameter is empty; otherwise return the name and
`r.URL.Path[:strings.Index(r.URL.Path, name)+len(name)]`.  On requests
routed by chi the name is a segment of the path, so `strings.Index` finds
it; the `none` branch for an absent name is unreachable there. -/
def getNameAndPfx (urlPath name : String) : Option (String × String) :=
  if name = "" then none
  else
    match strIndex urlPath name with
    | none => none
    | some r => some (name, urlPath.take (r + name.length))

deriving instance DecidableEq for Except

/-- An HTTP request as the repo servers consume it: the URL path, the
`name` URL parameter chi extracted from it, and the result of
`common.GetAccount`. -/
structure Request where
  urlPath : String
  name : String
  account : Except String String
  deriving DecidableEq, Repr

/-- What a repo-server invocation does: write an error, serve a local
directory (after stripping the path prefix), or fetch a bucket key. -/
inductive ServeOutcome where
  | badRequest (msg : String)
  | serveDir (dir : String) (strippedPfx : String)
  | fetchKey (bucketKey : String)
  deriving DecidableEq, Repr

/-- Embedding of `FileServer.ServeRepo` (server.go lines 36..45): compute
name and path prefix, then serve `filepath.Join(s.BasePath, name)` with
the prefix stripped.  The account of the request is never consulted. -/
def FileServerServeRepo (basePath : String) (r : Request) : ServeOutcome :=
  match getNameAndPfx r.urlPath r.name with
  | none => .badRequest "repo name not provided"
  | some (name, pathPfx) => .serveDir (filepathJoin basePath name) pathPfx

/-- Embedding of `S3Proxy.ServeRepo` (server.go lines 67..99): compute the
path prefix, resolve the account (failure writes 400), and fetch from the
bucket the key `filepath.Join(account, r.URL.Path[_r+len(pathPrefix):])`
where `_r = strings.Index(r.URL.Path, pathPrefix)`. -/
def S3ProxyServeRepo (r : Request) : ServeOutcome :=
  match getNameAndPfx r.urlPath r.name with
  | none => .badRequest "repo name not provided"
  | some (_, pathPfx) =>
      match r.account with
      | .error e => .badRequest e
      | .ok account =>
          let j := (strIndex r.urlPath pathPfx).getD 0
          .fetchKey (filepathJoin account (r.urlPath.drop (j + pathPfx.length)))

/-- Modelled from the spec: the storage layout the spec prescribes for
served artifacts, `<account>/<identifier>/<relative-path>` (spec
sections 4.4 and 6).  Kept separate from `S3ProxyServeRepo` so the key
the code fetches can be compared with the layout the spec words. -/
def specStorageKey (account name rel : String) : String :=
  account ++ "/" ++ name ++ "/" ++ rel

/-- States persisted by a trace, in order (`db.DB.Update` writes). -/
def persistedStates (tr : List Event) : List String :=
  tr.filterMap fun e => match e with
    | .dbUpdate _ s => some s
    | _ => none

/-- Terminal states persisted by a trace. -/
def terminalStates (tr : List Event) : List String :=
  (persistedStates tr).filter fun s => s = "SUCCESS" || s = "ERROR"

/-- The `oldrepo` argument of each `pull-local` invocation of a trace, in
order.  `RepoPullLocalStaticDeltas` emits exactly one such event per
invocation and nothing else emits one, so this lists the merge/delta
invocations. -/
def pullSources (tr : List Event) : List String :=
  tr.filterMap fun e => match e with
    | .pullLocal _ oldrepo _ => some oldrepo
    | _ => none

/-- The uploader kinds invoked by a trace, in order. -/
def uploadKinds (tr : List Event) : List UploaderKind :=
  tr.filterMap fun e => match e with
    | .upload k _ => some k
    | _ => none

/-- The version-metadata strings committed by a trace, in order. -/
def committedMetas (tr : List Event) : List String :=
  tr.filterMap fun e => match e with
    | .ostreeCommitMeta _ _ m => some m
    | _ => none

/-! Concrete fixtures used by the counterexamples and witnesses below. -/

/-- An environment in which every external operation succeeds and no
bucket is configured. -/
def envAllOK : Env :=
  { mkdirOK := fun _ => true
    chdirOK := fun _ => true
    fetchOK := fun _ => true
    openOK := fun _ => true
    removeOK := fun _ => true
    ostreeCommitOK := fun _ _ => true
    revParseOut := fun _ _ => some "abc123\n"
    pullOK := fun _ _ _ => true
    deltaOK := fun _ _ _ => true
    removeAllOK := fun _ => true
    bucketName := "" }

/-- Like `envAllOK` but every tarball download fails. -/
def envFetchFail : Env :=
  { envAllOK with fetchOK := fun _ => false }

/-- Like `envAllOK` but every `rev-parse` fails (a ref is absent). -/
def envNoRev : Env :=
  { envAllOK with revParseOut := fun _ _ => none }

/-- Like `envAllOK` but with a bucket configured. -/
def envBucket : Env :=
  { envAllOK with bucketName := "rh-edge-tarballs" }

/-- A target commit fixture. -/
def cNew : Commit :=
  { osTreeCommit := "h1", osTreeRef := "rhel/9/x86_64/edge",
    imageBuildHash := "b1", imageBuildTarURL := "http://build/1.tar",
    buildDate := "2021-06-07", buildNumber := "10" }

/-- An old-commit fixture. -/
def cOldA : Commit :=
  { osTreeCommit := "h2", osTreeRef := "rhel/9/x86_64/edge",
    imageBuildHash := "b2", imageBuildTarURL := "http://build/2.tar",
    buildDate := "2021-05-01", buildNumber := "9" }

/-- A second old-commit fixture. -/
def cOldB : Commit :=
  { osTreeCommit := "h3", osTreeRef := "rhel/9/x86_64/edge",
    imageBuildHash := "b3", imageBuildTarURL := "http://build/3.tar",
    buildDate := "2021-04-01", buildNumber := "8" }

/-- A record with no old commits. -/
def urFresh : UpdateRecord :=
  { id := 7, updateCommit := cNew, oldCommits := [],
    inventoryHosts := ["host1"], state := "PENDING" }

/-- A record with two old commits. -/
def urTwoOld : UpdateRecord :=
  { id := 9, updateCommit := cNew, oldCommits := [cOldA, cOldB],
    inventoryHosts := ["host1"], state := "PENDING" }

/-- A persistence collaborator holding no records. -/
def dbEmpty : Db :=
  { firstByAccountAndId := fun _ _ => none }

/-- A persistence collaborator holding `urFresh` for account `acct1`
under id 5. -/
def dbOne : Db :=
  { firstByAccountAndId := fun a n =>
      if a = "acct1" ∧ n = 5 then some urFresh else none }

/-- A proxied artifact request: identifier 42 under account `acct1`. -/
def reqC6 : Request :=
  { urlPath := "/api/edge/v1/repos/42/objects/ab.filez", name := "42",
    account := .ok "acct1" }

/-- An artifact request for identifier 42 under account `a1`. -/
def reqA1 : Request :=
  { urlPath := "/repos/42/summary", name := "42", account := .ok "a1" }

/-- The same artifact request as `reqA1` but under account `a2`. -/
def reqA2 : Request :=
  { urlPath := "/repos/42/summary", name := "42", account := .ok "a2" }

/-- A proxied request under account `acct1` whose path carries a `..`
segment after the identifier, climbing out of the account's key space. -/
def reqEscape : Request :=
  { urlPath := "/repos/42/../a2/42/secret", name := "42",
    account := .ok "acct1" }

/-- A proxied request under account `a2` that reaches the bucket key
`a2/42/secret` without any `..` segment. -/
def reqVictim : Request :=
  { urlPath := "/repos/42/42/secret", name := "42", account := .ok "a2" }

/-! Trace-projection helper lemmas. -/

theorem persistedStates_append (t u : List Event) :
    persistedStates (t ++ u) = persistedStates t ++ persistedStates u := by
  simp [persistedStates]

theorem pullSources_append (t u : List Event) :
    pullSources (t ++ u) = pullSources t ++ pullSources u := by
  simp [pullSources]

theorem uploadKinds_append (t u : List Event) :
    uploadKinds (t ++ u) = uploadKinds t ++ uploadKinds u := by
  simp [uploadKinds]

theorem persistedStates_cons_dbUpdate (i : Nat) (s : String) (t : List Event) :
    persistedStates (Event.dbUpdate i s :: t) = s :: persistedStates t := rfl

theorem persistedStates_cons_mkdirAll (p : String) (t : List Event) :
    persistedStates (Event.mkdirAll p :: t) = persistedStates t := rfl

theorem persistedStates_cons_chdir (p : String) (t : List Event) :
    persistedStates (Event.chdir p :: t) = persistedStates t := rfl

theorem pullSources_cons_dbUpdate (i : Nat) (s : String) (t : List Event) :
    pullSources (Event.dbUpdate i s :: t) = pullSources t := rfl

theorem pullSources_cons_mkdirAll (p : String) (t : List Event) :
    pullSources (Event.mkdirAll p :: t) = pullSources t := rfl

theorem pullSources_cons_chdir (p : String) (t : List Event) :
    pullSources (Event.chdir p :: t) = pullSources t := rfl

theorem uploadKinds_cons_dbUpdate (i : Nat) (s : String) (t : List Event) :
    uploadKinds (Event.dbUpdate i s :: t) = uploadKinds t := rfl

theorem uploadKinds_cons_mkdirAll (p : String) (t : List Event) :
    uploadKinds (Event.mkdirAll p :: t) = uploadKinds t := rfl

theorem uploadKinds_cons_chdir (p : String) (t : List Event) :
    uploadKinds (Event.chdir p :: t) = uploadKinds t := rfl

theorem persistedStates_nil : persistedStates [] = [] := rfl

theorem pullSources_nil : pullSources [] = [] := rfl

theorem uploadKinds_nil : uploadKinds [] = [] := rfl

theorem persistedStates_DEVR (env : Env) (c : Commit) (dest : String) :
    persistedStates (DownloadExtractVersionRepo env c dest).1 = [] := by
  simp only [DownloadExtractVersionRepo]
  split_ifs <;> simp [persistedStates]

theorem pullSources_DEVR (env : Env) (c : Commit) (dest : String) :
    pullSources (DownloadExtractVersionRepo env c dest).1 = [] := by
  simp only [DownloadExtractVersionRepo]
  split_ifs <;> simp [pullSources]

theorem uploadKinds_DEVR (env : Env) (c : Commit) (dest : String) :
    uploadKinds (DownloadExtractVersionRepo env c dest).1 = [] := by
  simp only [DownloadExtractVersionRepo]
  split_ifs <;> simp [uploadKinds]

theorem persistedStates_RPLSD (env : Env) (u o : Commit) (up old : String) :
    persistedStates (RepoPullLocalStaticDeltas env u o up old).1 = [] := by
  simp only [RepoPullLocalStaticDeltas, RepoRevParse]
  split_ifs <;> simp [persistedStates]

theorem pullSources_RPLSD (env : Env) (u o : Commit) (up old : String) :
    pullSources (RepoPullLocalStaticDeltas env u o up old).1 = [old] := by
  simp only [RepoPullLocalStaticDeltas, RepoRevParse]
  split_ifs <;> simp [pullSources]

theorem uploadKinds_RPLSD (env : Env) (u o : Commit) (up old : String) :
    uploadKinds (RepoPullLocalStaticDeltas env u o up old).1 = [] := by
  simp only [RepoPullLocalStaticDeltas, RepoRevParse]
  split_ifs <;> simp [uploadKinds]

theorem persistedStates_oldCommitStep (env : Env) (ur : UpdateRecord)
    (c : Commit) : persistedStates (oldCommitStep env ur c) = [] := by
  simp [oldCommitStep, persistedStates_append, persistedStates_DEVR,
    persistedStates_RPLSD]

theorem pullSources_oldCommitStep (env : Env) (ur : UpdateRecord)
    (c : Commit) : pullSources (oldCommitStep env ur c) =
      [filepathJoin (filepathJoin (stagingPath ur.id) c.osTreeCommit) "repo"] := by
  simp [oldCommitStep, pullSources_append, pullSources_DEVR, pullSources_RPLSD]

theorem uploadKinds_oldCommitStep (env : Env) (ur : UpdateRecord)
    (c : Commit) : uploadKinds (oldCommitStep env ur c) = [] := by
  simp [oldCommitStep, uploadKinds_append, uploadKinds_DEVR, uploadKinds_RPLSD]

theorem persistedStates_flatMap (env : Env) (ur : UpdateRecord)
    (l : List Commit) :
    persistedStates (l.flatMap (oldCommitStep env ur)) = [] := by
  induction l with
  | nil => rfl
  | cons c t ih =>
      simp [List.flatMap_cons, persistedStates_append,
        persistedStates_oldCommitStep, ih]

theorem pullSources_flatMap (env : Env) (ur : UpdateRecord) (l : List Commit) :
    pullSources (l.flatMap (oldCommitStep env ur)) =
      l.map (fun c =>
        filepathJoin (filepathJoin (stagingPath ur.id) c.osTreeCommit) "repo") := by
  induction l with
  | nil => rfl
  | cons c t ih =>
      simp [List.flatMap_cons, pullSources_append, pullSources_oldCommitStep, ih]

theorem uploadKinds_flatMap (env : Env) (ur : UpdateRecord) (l : List Commit) :
    uploadKinds (l.flatMap (oldCommitStep env ur)) = [] := by
  induction l with
  | nil => rfl
  | cons c t ih =>
      simp [List.flatMap_cons, uploadKinds_append, uploadKinds_oldCommitStep, ih]

theorem persistedStates_finishBuild (env : Env) (ur1 : UpdateRecord)
    (path : String) (t : List Event) :
    persistedStates (finishBuild env ur1 path t).1 = persistedStates t := by
  simp only [finishBuild]
  split_ifs <;> simp [persistedStates_append, persistedStates]

theorem pullSources_finishBuild (env : Env) (ur1 : UpdateRecord)
    (path : String) (t : List Event) :
    pullSources (finishBuild env ur1 path t).1 = pullSources t := by
  simp only [finishBuild]
  split_ifs <;> simp [pullSources_append, pullSources]

theorem uploadKinds_finishBuild_ok (env : Env) (ur1 : UpdateRecord)
    (path : String) (t : List Event)
    (h : (finishBuild env ur1 path t).2.2 = Except.ok ()) :
    uploadKinds (finishBuild env ur1 path t).1 =
      uploadKinds t ++
        [if env.bucketName ≠ "" then UploaderKind.s3 else UploaderKind.file] := by
  simp only [finishBuild] at h ⊢
  split_ifs at h ⊢ <;> simp_all [uploadKinds_append, uploadKinds]

/-! Claim theorems. -/

/-- C1: evaluation of the code at the failing input of the claim.  For a
record whose `UpdateCommit` tarball download fails (`envFetchFail`), the
claim says all remaining stages are aborted, no upload is attempted, and
the persisted `State` is `ERROR`.  The code does the opposite:
`RepoBuilder` discards the value `DownloadExtractVersionRepo` returns
(updates.go line 185), so the run still performs the upload, never
persists any terminal state, and returns `nil`. -/
theorem c1_fetch_failure_still_uploads :
    (RepoBuilder envFetchFail urFresh).2.2 = Except.ok () ∧
    uploadKinds (RepoBuilder envFetchFail urFresh).1 = [UploaderKind.file] ∧
    terminalStates (RepoBuilder envFetchFail urFresh).1 = [] := by
  decide

/-- C2 counterexample: the claim says the pipeline always ends by writing
exactly one terminal state (`SUCCESS` or `ERROR`).  On a fully successful
run over `urTwoOld` the pipeline returns `nil` yet the trace contains no
terminal-state write at all — the record stays `BUILDING`. -/
theorem c2_no_terminal_state_cex :
    (RepoBuilder envAllOK urTwoOld).2.2 = Except.ok () ∧
    terminalStates (RepoBuilder envAllOK urTwoOld).1 = [] ∧
    (RepoBuilder envAllOK urTwoOld).2.1.state = "BUILDING" := by
  decide

/-- C2 amended: on every run, the pipeline's persisted state writes are
exactly one write of `BUILDING` — the state only moves forward from
`PENDING` to `BUILDING`, and no terminal state (`SUCCESS` or `ERROR`) is
ever written to persistence. -/
theorem c2_pipeline_persists_only_building (env : Env) (ur : UpdateRecord) :
    persistedStates (RepoBuilder env ur).1 = ["BUILDING"] := by
  simp only [RepoBuilder]
  split_ifs <;>
    simp [persistedStates_finishBuild, persistedStates_append,
      persistedStates_DEVR, persistedStates_flatMap,
      persistedStates_cons_dbUpdate, persistedStates_cons_mkdirAll,
      persistedStates_cons_chdir, persistedStates_nil]

/-- C3: whenever the working and staging directories can be created and
entered, the merge-and-delta operation (`RepoPullLocalStaticDeltas`, the
only emitter of `pull-local` events) is invoked exactly once per old
commit, in the order the old commits appear in the record — each
invocation pulling from that commit's staging repository
`staging/<OSTreeCommit>/repo`.  For a record with zero old commits it is
never invoked. -/
theorem c3_merge_once_per_old_commit (env : Env) (ur : UpdateRecord)
    (h1 : env.mkdirOK (buildPath ur.id) = true)
    (h2 : env.chdirOK (buildPath ur.id) = true)
    (h3 : env.mkdirOK (stagingPath ur.id) = true)
    (h4 : env.chdirOK (stagingPath ur.id) = true) :
    pullSources (RepoBuilder env ur).1 =
      ur.oldCommits.map (fun c =>
        filepathJoin (filepathJoin (stagingPath ur.id) c.osTreeCommit) "repo") := by
  cases hoc : ur.oldCommits with
  | nil =>
      simp only [RepoBuilder, hoc, h1, h2]
      simp [pullSources_finishBuild, pullSources_append, pullSources_DEVR,
        pullSources_cons_dbUpdate, pullSources_cons_mkdirAll,
        pullSources_cons_chdir, pullSources_nil]
  | cons c t =>
      simp only [RepoBuilder, hoc, h1, h2, h3, h4]
      simp [pullSources_finishBuild, pullSources_append, pullSources_DEVR,
        pullSources_flatMap, pullSources_cons_dbUpdate,
        pullSources_cons_mkdirAll, pullSources_cons_chdir, pullSources_nil,
        pullSources_oldCommitStep]

/-- C3 witness: the theorem applied to the all-succeeding environment and
the two-old-commit record. -/
theorem c3_merge_once_per_old_commit_witness :
    pullSources (RepoBuilder envAllOK urTwoOld).1 =
      urTwoOld.oldCommits.map (fun c =>
        filepathJoin (filepathJoin (stagingPath urTwoOld.id) c.osTreeCommit)
          "repo") :=
  c3_merge_once_per_old_commit envAllOK urTwoOld rfl rfl rfl rfl

/-- C8: on every run that returns success, the upload performed uses the
object-storage uploader exactly when a bucket name is configured
(non-empty `cfg.BucketName`), and the local filesystem uploader exactly
when it is not. -/
theorem c8_uploader_selected_by_bucket (env : Env) (ur : UpdateRecord)
    (h : (RepoBuilder env ur).2.2 = Except.ok ()) :
    (uploadKinds (RepoBuilder env ur).1 = [UploaderKind.s3] ↔
      env.bucketName ≠ "") ∧
    (uploadKinds (RepoBuilder env ur).1 = [UploaderKind.file] ↔
      env.bucketName = "") := by
  have hk : uploadKinds (RepoBuilder env ur).1 =
      [if env.bucketName ≠ "" then UploaderKind.s3 else UploaderKind.file] := by
    simp only [RepoBuilder] at h ⊢
    split_ifs at h ⊢ <;>
      first
      | (simp_all
         done)
      | (rw [uploadKinds_finishBuild_ok _ _ _ _ h]
         simp_all [uploadKinds_append, uploadKinds_DEVR, uploadKinds_flatMap,
           uploadKinds_cons_dbUpdate, uploadKinds_cons_mkdirAll,
           uploadKinds_cons_chdir, uploadKinds_nil])
  rw [hk]
  by_cases hb : env.bucketName = "" <;> simp [hb]

/-- C8 witness: the theorem applied to a bucket-configured environment
and the fresh record, for which the build returns success. -/
theorem c8_uploader_selected_by_bucket_witness :
    (uploadKinds (RepoBuilder envBucket urFresh).1 = [UploaderKind.s3] ↔
      envBucket.bucketName ≠ "") ∧
    (uploadKinds (RepoBuilder envBucket urFresh).1 = [UploaderKind.file] ↔
      envBucket.bucketName = "") :=
  c8_uploader_selected_by_bucket envBucket urFresh (by decide)

/-- C4: evaluation of the code at the failing input of the claim.
Materializing a commit with build date `2021-06-07` and build number `10`
commits the literal string `version=%s.%s2021-06-0710` — the source calls
`fmt.Sprint` (which concatenates its operands) with a `Sprintf`-style
format string (updates.go line 263) — not the `version=2021-06-07.10`
the claim states. -/
theorem c4_version_metadata_malformed :
    committedMetas (DownloadExtractVersionRepo envAllOK cNew "/tmp/d").1 =
      ["version=%s.%s2021-06-0710"] ∧
    versionMetaString cNew ≠ specVersionMetaString cNew ∧
    specVersionMetaString cNew = "version=2021-06-07.10" := by
  decide

/-- C5: evaluation of the code at the failing input of the claim.  In an
environment where `rev-parse` fails for every ref (the ref is absent),
the claim says `RepoPullLocalStaticDeltas` returns an error without
pulling or generating a delta.  The code instead discards both
resolution errors (updates.go lines 284..285), runs `pull-local` and the
delta generation with empty revision strings, and returns `nil`. -/
theorem c5_revparse_failure_still_pulls :
    (RepoPullLocalStaticDeltas envNoRev cNew cOldA "/up/repo" "/old/repo").2 =
      Except.ok () ∧
    (RepoPullLocalStaticDeltas envNoRev cNew cOldA "/up/repo" "/old/repo").1 =
      [Event.revParse "/up/repo" cNew.osTreeRef,
       Event.revParse "/old/repo" cOldA.osTreeRef,
       Event.pullLocal "/up/repo" "/old/repo" "",
       Event.staticDelta "/up/repo" "" ""] := by
  decide

/-- C6: evaluation of the code at the failing input of the claim.  For a
request for identifier `42`, relative path `objects/ab.filez` under
account `acct1`, the proxy fetches the bucket key
`acct1/objects/ab.filez` — the path prefix it strips ends with the
identifier, which is then never re-added (server.go lines 81..82),
contradicting both the claim and the function's own comment
(`bucket/$account/$name/path/in/repo`). -/
theorem c6_proxy_key_omits_identifier :
    S3ProxyServeRepo reqC6 = ServeOutcome.fetchKey "acct1/objects/ab.filez" ∧
    specStorageKey "acct1" "42" "objects/ab.filez" =
      "acct1/42/objects/ab.filez" ∧
    ("acct1/objects/ab.filez" : String) ≠ "acct1/42/objects/ab.filez" := by
  decide

/-- C7 counterexample: the claim says every read's response depends only
on data owned by the requesting account.  Two artifact requests for
identifier `42` that differ only in the requesting account are served the
exact same directory by `FileServer.ServeRepo` — the function never
consults the account, so account `a1` is served whatever artifact lives
under identifier `42`, whoever owns it. -/
theorem c7_fileserver_ignores_account_cex :
    reqA1.account ≠ reqA2.account ∧
    FileServerServeRepo "/base" reqA1 = FileServerServeRepo "/base" reqA2 ∧
    FileServerServeRepo "/base" reqA1 =
      ServeOutcome.serveDir "/base/42" "/repos/42" := by
  decide

/-- C7 amended: record reads through `UpdateCtx` return only records the
account-scoped lookup yields; artifact serving, however, is not
account-isolated in either server.  `FileServer.ServeRepo` ignores the
requesting account entirely — its response is a function of the URL path
and identifier alone.  And `S3Proxy.ServeRepo` prepends the account only
textually before `filepath.Join` cleans the path, so a `..` segment in
the request path climbs out of the account's key space: the request
`reqEscape`, made under account `acct1`, fetches the very bucket key
`a2/42/secret` that the request `reqVictim` under account `a2`
fetches. -/
theorem c7_account_scoping_amended :
    (∀ (basePath : String) (r1 r2 : Request), r1.urlPath = r2.urlPath →
        r1.name = r2.name →
        FileServerServeRepo basePath r1 = FileServerServeRepo basePath r2) ∧
    (∀ (db : Db) (account updateID : String) (u : UpdateRecord),
        UpdateCtx db (Except.ok account) updateID = CtxOutcome.callNext u →
        ∃ n, goAtoi updateID = some n ∧
          db.firstByAccountAndId account n = some u) ∧
    (reqEscape.account ≠ reqVictim.account ∧
     S3ProxyServeRepo reqEscape = ServeOutcome.fetchKey "a2/42/secret" ∧
     S3ProxyServeRepo reqVictim = ServeOutcome.fetchKey "a2/42/secret") := by
  refine ⟨?_, ?_, by decide⟩
  · intro basePath r1 r2 h1 h2
    simp [FileServerServeRepo, h1, h2]
  · intro db account updateID u h
    simp only [UpdateCtx] at h
    split_ifs at h with hne
    · cases hg : goAtoi updateID with
      | none => rw [hg] at h; simp at h
      | some n =>
          rw [hg] at h
          cases hd : db.firstByAccountAndId account n with
          | none => simp [hd] at h
          | some v =>
              simp only [hd, CtxOutcome.callNext.injEq] at h
              exact ⟨n, rfl, by rw [hd, h]⟩

/-- C7 witness: the amended theorem applied at concrete inputs — the
file server serving two requests that differ only in account, the
middleware returning the record `dbOne` holds for account `acct1` id 5,
and the concrete cross-account proxy fetch. -/
theorem c7_account_scoping_amended_witness :
    FileServerServeRepo "/base" reqA1 =
      FileServerServeRepo "/base" reqA2 ∧
    (∃ n, goAtoi "5" = some n ∧
      dbOne.firstByAccountAndId "acct1" n = some urFresh) ∧
    (reqEscape.account ≠ reqVictim.account ∧
     S3ProxyServeRepo reqEscape = ServeOutcome.fetchKey "a2/42/secret" ∧
     S3ProxyServeRepo reqVictim = ServeOutcome.fetchKey "a2/42/secret") :=
  ⟨c7_account_scoping_amended.1 "/base" reqA1 reqA2 rfl rfl,
   c7_account_scoping_amended.2.1 dbOne "acct1" "5" urFresh (by decide),
   c7_account_scoping_amended.2.2⟩

/-- C9 counterexample: the claim says the submission handler's response
body contains the created record.  For a well-formed submission the
handler creates the record and spawns the build, but writes nothing at
all to the response body (no `json.NewEncoder(w).Encode` call exists in
`Add`, updates.go lines 99..110). -/
theorem c9_add_empty_body_cex :
    (Add (Except.ok urFresh)).created = some urFresh ∧
    (Add (Except.ok urFresh)).responseBody = none ∧
    (Add (Except.ok urFresh)).responseBody ≠ some urFresh := by
  decide

/-- C9 amended: for every well-formed submission, the handler returns
immediately — the build is handed to an asynchronous task
(`spawnedBuild`) and no build work happens in the handler — the record
is created in the database, but the response body is empty rather than
containing the created record. -/
theorem c9_add_returns_spawning_build (u : UpdateRecord) :
    Add (Except.ok u) =
      { httpError := none, responseBody := none, created := some u,
        spawnedBuild := some u } := rfl

/-- C10 counterexample: the claim says every request with an empty
`updateID` gets no response written.  A request whose account resolution
fails is answered with a 400 error body even when `updateID` is empty,
because `UpdateCtx` checks the account before looking at `updateID`
(updates.go lines 76..80). -/
theorem c10_bad_account_writes_error_cex :
    UpdateCtx dbEmpty (Except.error "bad identity") "" =
      CtxOutcome.badRequest "bad identity" ∧
    CtxOutcome.badRequest "bad identity" ≠ CtxOutcome.noResponse := by
  decide

/-- C10 amended: for every request whose account resolves successfully
and whose `updateID` URL parameter is the empty string, the middleware
writes no response at all and never invokes the inner handler. -/
theorem c10_empty_id_no_response (db : Db) (account : String) :
    UpdateCtx db (Except.ok account) "" = CtxOutcome.noResponse := rfl

end EdgeApi
